import Mathlib

/-!
# Verification of the GPT-4-Vision-Captioner batch orchestration core

Shallow embedding of the orchestration logic of `src/index.js` and
`src/api/batchApi.js`: the chunk planner, the batch job lifecycle
(submit, poll, reconcile), the synchronous retry path, message cleaning
and output-file-name derivation.  External effects (file system, HTTP)
are modelled by explicit environments, and the observable behaviour of a
run is an event trace plus an optional run-aborting error.

Number representation: the source computes the per-item size estimate as
`fileSize * 1.33` with JS floats.  Following the spec, the estimate is
read as the exact rational `fileSize * (133/100)`; to keep the planner
kernel-executable the running totals are kept in hundredths of a byte
(`fileSize * 133` against a budget of `B * 100`), which compares exactly
like the rational values.  `estimatedEncodedSize`/`chunkEstimatedSize`
state the same quantities in `ℚ`, and bridge lemmas connect the two.
-/

/-- An input image as seen by the chunk planner: its path together with
the byte size reported by `fs.statSync(imagePath).size`. -/
structure ImageItem where
  path : String
  size : Nat
  deriving DecidableEq, Repr

/-- `MAX_BATCH_SIZE_BYTES` from `processBatchImages`
(180MB, leaving buffer below the 200MB limit). -/
def MAX_BATCH_SIZE_BYTES : Nat := 180 * 1024 * 1024

/-- `const estimatedEncodedSize = fileSize * 1.33;` — the per-item size
estimate, as the exact rational value. -/
def estimatedEncodedSize (fileSize : Nat) : ℚ := (fileSize : ℚ) * 1.33

/-- The same estimate scaled by 100 to stay in `Nat`:
`fileSize * 1.33` in hundredths of a byte. -/
def scaledEstimate (fileSize : Nat) : Nat := fileSize * 133

/-- The greedy chunking loop of `processBatchImages` (batchApi.js
lines 238-255): `cur` is `currentBatch`, `curSize` is
`currentBatchSize` (in hundredths of a byte); a new batch starts when
adding the next image would exceed the budget `B` (in bytes) and the
current batch is non-empty.  The final non-empty batch is pushed after
the loop (lines 257-260). -/
def planChunksAux (B : Nat) (cur : List ImageItem) (curSize : Nat) :
    List ImageItem → List (List ImageItem)
  | [] => if cur = [] then [] else [cur]
  | item :: rest =>
    let est := scaledEstimate item.size
    if curSize + est > B * 100 ∧ cur ≠ [] then
      cur :: planChunksAux B [item] est rest
    else
      planChunksAux B (cur ++ [item]) (curSize + est) rest

/-- The Chunk Planner: split `items` into size-bounded chunks for byte
budget `B` (the source runs it with `B = MAX_BATCH_SIZE_BYTES`). -/
def planChunks (B : Nat) (items : List ImageItem) : List (List ImageItem) :=
  planChunksAux B [] 0 items

/-- Estimated encoded size of a whole chunk, as the exact rational the
spec speaks about: the sum over its items of `raw size * 1.33`. -/
def chunkEstimatedSize (c : List ImageItem) : ℚ :=
  (c.map (fun i => estimatedEncodedSize i.size)).sum

/-- Estimated encoded size of a chunk in hundredths of a byte. -/
def scaledChunkSize (c : List ImageItem) : Nat :=
  (c.map (fun i => scaledEstimate i.size)).sum

/-- Characters escaped by `cleanMessage`: `(`, `)` and `"`
(the regex character class `[()"]`). -/
def isEscapedChar (c : Char) : Bool :=
  c == '(' || c == ')' || c == '"'

/-- One step of `message.replace(/([()"])/g, "\\$1")`: an escaped
character is prefixed with a backslash, any other character is kept. -/
def escapeChar (c : Char) : List Char :=
  if isEscapedChar c then ['\\', c] else [c]

/-- `cleanMessage` on a character list. -/
def cleanList (l : List Char) : List Char := l.flatMap escapeChar

/-- `cleanMessage(message)` (identical definitions in index.js lines
238-240 and batchApi.js lines 367-369): escape parentheses and double
quotes by adding a backslash before each of them. -/
def cleanMessage (message : String) : String := ⟨cleanList message.data⟩

/-- Final path component: models `path.split(/[/\\]/).pop()` in
`getFileNameFromPath`, and `path.basename(imagePath)` for the paths the
program builds (no trailing separator). -/
def lastPathComponent (p : String) : String :=
  ⟨p.data.foldl (fun acc c => if c = '/' ∨ c = '\\' then [] else acc ++ [c]) []⟩

/-- `name.split(sep)` on character lists (structural, so that it
evaluates in the kernel).  `splitOnChar sep [] = [[]]`, matching JS
`"".split(sep) = [""]`. -/
def splitOnChar (sep : Char) : List Char → List (List Char)
  | [] => [[]]
  | c :: rest =>
    if c = sep then [] :: splitOnChar sep rest
    else
      match splitOnChar sep rest with
      | [] => [[c]]
      | h :: t => (c :: h) :: t

/-- `parts.join(".")` on character lists. -/
def joinWithDot : List (List Char) → List Char
  | [] => []
  | [x] => x
  | x :: rest => x ++ '.' :: joinWithDot rest

/-- `getFileNameFromPath(path)` (index.js lines 252-255): final path
component with `fileName.split(".").slice(0, -1).join(".")` applied. -/
def getFileNameFromPath (p : String) : String :=
  ⟨joinWithDot ((splitOnChar '.' (lastPathComponent p).data).dropLast)⟩

/-- Index of the last `'.'` in a character list, if any. -/
def lastDotPos : List Char → Option Nat
  | [] => none
  | c :: rest =>
    match lastDotPos rest with
    | some k => some (k + 1)
    | none => if c = '.' then some 0 else none

/-- `path.parse(fullFileName).name` for a bare file name (batchApi.js
line 346): the name cut at its last dot; a dot in first position starts
no extension (`.hidden`), and `".."` has no extension either. -/
def parseName (s : String) : String :=
  match lastDotPos s.data with
  | none => s
  | some k => if k = 0 ∨ s = ".." then s else ⟨s.data.take k⟩

/-- The output path `${outputFolderPath}/${base}.${fileExt}` used by
both the batch result loop (batchApi.js line 350) and the synchronous
path (index.js line 197). -/
def outputFilePath (folder ext base : String) : String :=
  folder ++ "/" ++ base ++ "." ++ ext

/-- The first pass of `processBatchImages` interleaves `fs.statSync`
with chunk accumulation; since planning has no side effect besides the
stat calls themselves, it is modelled in two phases: stat every path in
order (failing at the first path whose `statSync` throws, as the loop
does), then the pure greedy planner on the sized items. -/
def statItems (stat : String → Option Nat) :
    List String → Except String (List ImageItem)
  | [] => .ok []
  | p :: rest =>
    match stat p with
    | none => .error p
    | some sz => (statItems stat rest).map (fun items => ⟨p, sz⟩ :: items)

/-- A response of `checkBatchStatus`: the `status` string plus the
optional `error_file_id` / `output_file_id` fields. -/
structure BatchStatus where
  status : String
  error_file_id : Option String
  output_file_id : Option String
  deriving DecidableEq, Repr

/-- One record of a downloaded error file: `error.custom_id` and
`error.error.message` as logged at batchApi.js lines 300-302. -/
structure ErrorRecord where
  custom_id : String
  message : String
  deriving DecidableEq, Repr

/-- One record of a downloaded result file: `result.custom_id`,
`result.error` (`some message` when the record carries an error) and
`result.response.body.choices[0].message.content`. -/
structure ResultRecord where
  custom_id : String
  error : Option String
  content : String
  deriving DecidableEq, Repr

/-- The external world of the batch path.  `stat`/`encode` model the
file system (`none` = the call throws / returns null); `upload` and
`createJob` model the two submission calls (`Except.error` carries the
external error payload of a non-ok response); `poll` gives the
successive `checkBatchStatus` responses for a job; `fetchErrors` models
`downloadBatchErrors` (`none` = the download throws, which the source
catches and logs); `fetchResults` models `downloadBatchResults` keyed
by the job's `output_file_id`. -/
structure BatchEnv where
  stat : String → Option Nat
  encode : String → Option String
  upload : Nat → Except String String
  createJob : String → Except String String
  poll : String → List BatchStatus
  fetchErrors : String → Option (List ErrorRecord)
  fetchResults : Option String → List ResultRecord

/-- Observable steps of a run: manifest construction, submission,
polling, error logging and output-file writes. -/
inductive Event where
  | manifestRequest (chunkIdx : Nat) (customId : String)
  | encodeFailed (chunkIdx : Nat) (path : String)
  | uploadAttempted (chunkIdx : Nat)
  | uploaded (chunkIdx : Nat) (fileId : String)
  | jobCreated (chunkIdx : Nat) (batchId : String)
  | polled (chunkIdx : Nat) (status : String)
  | downloadedErrors (chunkIdx : Nat) (fileId : String)
  | errorFetchFailed (chunkIdx : Nat) (fileId : String)
  | loggedBatchItemError (customId : String) (msg : String)
  | loggedResultError (customId : String) (msg : String)
  | wroteFile (path : String) (content : String)
  | attemptFailed (fileName : String) (attempt : Nat)
  | loggedPermanentFailure (fileName : String)
  deriving DecidableEq, Repr

/-- How a run ends abnormally.  `statFailure` is the `fs.statSync`
exception escaping the planning loop; `submissionFailure` is the error
thrown by `uploadBatchFile`/`createBatch` on a non-ok response;
`batchJobFailure` is the error thrown on a `failed`/`expired` job;
`pollDiverged` marks the modelling artifact of a poll-response list
that ends before a terminal status (the source would poll forever). -/
inductive RunError where
  | statFailure (path : String)
  | submissionFailure (payload : String)
  | batchJobFailure (chunkIdx : Nat) (status : String)
  | pollDiverged (chunkIdx : Nat)
  deriving DecidableEq, Repr

/-- The manifest-building loop of `createBatchInputFile` (batchApi.js
lines 30-69): per image, encode it; on failure log and `continue`,
otherwise append a request whose `custom_id` is the file's base name.
Returns the events and the list of included custom ids, in input
order. -/
def buildManifest (env : BatchEnv) (idx : Nat) :
    List ImageItem → List Event × List String
  | [] => ([], [])
  | item :: rest =>
    let r := buildManifest env idx rest
    match env.encode item.path with
    | none => (.encodeFailed idx item.path :: r.1, r.2)
    | some _ =>
      (.manifestRequest idx (lastPathComponent item.path) :: r.1,
       lastPathComponent item.path :: r.2)

/-- The polling do-while loop (batchApi.js lines 290-332): consume
successive statuses until one is `failed`, `expired` or `completed`;
`none` means the list was exhausted first (the source keeps waiting). -/
def runPollLoop (idx : Nat) : List BatchStatus → List Event × Option BatchStatus
  | [] => ([], none)
  | st :: rest =>
    if st.status = "failed" ∨ st.status = "expired" ∨ st.status = "completed" then
      ([.polled idx st.status], some st)
    else
      let r := runPollLoop idx rest
      (.polled idx st.status :: r.1, r.2)

/-- The error-detail block run on a `failed`/`expired` status
(batchApi.js lines 296-306 / 312-322): if `error_file_id` is present,
try to download the error file and log each record's custom id and
message; a download failure is itself caught and logged. -/
def handleFailure (env : BatchEnv) (idx : Nat) (st : BatchStatus) : List Event :=
  match st.error_file_id with
  | none => []
  | some fid =>
    match env.fetchErrors fid with
    | none => [.errorFetchFailed idx fid]
    | some errs =>
      .downloadedErrors idx fid ::
        errs.map (fun e => .loggedBatchItemError e.custom_id e.message)

/-- The result loop of `processBatchImages` (batchApi.js lines
338-353): a record carrying an error is logged and skipped; otherwise
the cleaned content is written to
`${outputFolderPath}/${path.parse(custom_id).name}.${fileExt}`. -/
def reconcile (folder ext : String) (results : List ResultRecord) : List Event :=
  results.flatMap fun r =>
    match r.error with
    | some msg => [.loggedResultError r.custom_id msg]
    | none =>
      [.wroteFile (outputFilePath folder ext (parseName r.custom_id))
        (cleanMessage r.content)]

/-- One iteration of the per-batch loop of `processBatchImages`
(batchApi.js lines 266-356): build and upload the manifest, create the
job, poll to a terminal status, then either fetch/log error details and
throw, or download the results and reconcile them. -/
def processOneChunk (env : BatchEnv) (folder ext : String) (idx : Nat)
    (chunk : List ImageItem) : List Event × Option RunError :=
  let evs0 := (buildManifest env idx chunk).1 ++ [Event.uploadAttempted idx]
  match env.upload idx with
  | .error payload => (evs0, some (.submissionFailure payload))
  | .ok fileId =>
    let evs1 := evs0 ++ [Event.uploaded idx fileId]
    match env.createJob fileId with
    | .error payload => (evs1, some (.submissionFailure payload))
    | .ok batchId =>
      let evs2 := evs1 ++ [Event.jobCreated idx batchId]
      let pr := runPollLoop idx (env.poll batchId)
      let evs3 := evs2 ++ pr.1
      match pr.2 with
      | none => (evs3, some (.pollDiverged idx))
      | some st =>
        if st.status = "failed" ∨ st.status = "expired" then
          (evs3 ++ handleFailure env idx st, some (.batchJobFailure idx st.status))
        else
          (evs3 ++ reconcile folder ext (env.fetchResults st.output_file_id), none)

/-- The per-batch loop: chunks are processed strictly sequentially, and
a thrown error aborts the whole remaining run. -/
def runChunksFrom (env : BatchEnv) (folder ext : String) :
    Nat → List (List ImageItem) → List Event × Option RunError
  | _, [] => ([], none)
  | idx, chunk :: rest =>
    let r := processOneChunk env folder ext idx chunk
    match r.2 with
    | some e => (r.1, some e)
    | none =>
      let r2 := runChunksFrom env folder ext (idx + 1) rest
      (r.1 ++ r2.1, r2.2)

/-- `processBatchImages` end to end: plan every chunk first (any
`statSync` exception propagates before anything is submitted), then
process the planned chunks sequentially. -/
def processBatchImages (env : BatchEnv) (folder ext : String)
    (paths : List String) : List Event × Option RunError :=
  match statItems env.stat paths with
  | .error p => ([], some (.statFailure p))
  | .ok items => runChunksFrom env folder ext 0 (planChunks MAX_BATCH_SIZE_BYTES items)

/-- The external world of the synchronous path: the outcome of
`queryOpenAIWithImage` for a given image path and attempt number
(`Except.error` = the query throws, `Except.ok` = the generated
caption `outputData.choices[0].message.content`). -/
structure SyncEnv where
  query : String → Nat → Except String String

/-- `attemptQueryWithRetry` (index.js lines 175-226): query; on success
write the cleaned caption to
`${outputFolderPath}/${fileName}.${fileExt}`; on failure log the
attempt and retry while `attempt < retries`, else log the permanent
failure. -/
def attemptQueryWithRetry (env : SyncEnv) (filePath fileName folder ext : String)
    (retries attempt : Nat) : List Event :=
  match env.query filePath attempt with
  | .ok content =>
    [.wroteFile (outputFilePath folder ext fileName) (cleanMessage content)]
  | .error _ =>
    if h : attempt < retries then
      .attemptFailed fileName attempt ::
        attemptQueryWithRetry env filePath fileName folder ext retries (attempt + 1)
    else
      [.attemptFailed fileName attempt, .loggedPermanentFailure fileName]
termination_by retries - attempt

/-- `processImagesSynchronously` (index.js lines 146-173): each image
in order, with 3 total attempts, the item's outcome never stopping the
loop. -/
def processImagesSynchronously (env : SyncEnv) (folder ext : String)
    (paths : List String) : List Event :=
  paths.flatMap fun p =>
    attemptQueryWithRetry env p (getFileNameFromPath p) folder ext 3 1

/-- The chunk index of a submission attempt, `none` for other events. -/
def Event.uploadAttemptIdx : Event → Option Nat
  | .uploadAttempted i => some i
  | _ => none

/-- Is this event an output-file write? -/
def Event.isWrite : Event → Bool
  | .wroteFile _ _ => true
  | _ => false

/-- Is this event a logged per-result error? -/
def Event.isResultErrorLog : Event → Bool
  | .loggedResultError _ _ => true
  | _ => false

/-- Replay the file writes of a trace over an initial output-directory
state: `fs.writeFileSync` replaces whatever was at the path. -/
def applyWrites (fs0 : String → Option String) : List Event → String → Option String
  | [] => fs0
  | .wroteFile p c :: rest => applyWrites (fun q => if q = p then some c else fs0 q) rest
  | _ :: rest => applyWrites fs0 rest

/-! ## Chunk planner lemmas -/

theorem planChunksAux_join (B : Nat) :
    ∀ (items cur : List ImageItem) (curSize : Nat),
      (planChunksAux B cur curSize items).flatten = cur ++ items := by
  intro items
  induction items with
  | nil =>
    intro cur curSize
    by_cases h : cur = [] <;> simp [planChunksAux, h]
  | cons x rest ih =>
    intro cur curSize
    simp only [planChunksAux]
    split
    · simp [ih]
    · simp [ih]

theorem planChunks_join (B : Nat) (items : List ImageItem) :
    (planChunks B items).flatten = items := by
  simpa using planChunksAux_join B items [] 0

/-- The invariant every emitted chunk satisfies: estimated size within
budget, or a single (possibly oversized) item. -/
def chunkOk (B : Nat) (c : List ImageItem) : Prop :=
  scaledChunkSize c ≤ B * 100 ∨ c.length = 1

theorem scaledChunkSize_append (cur : List ImageItem) (x : ImageItem) :
    scaledChunkSize (cur ++ [x]) = scaledChunkSize cur + scaledEstimate x.size := by
  simp [scaledChunkSize]

theorem planChunksAux_chunkOk (B : Nat) :
    ∀ (items cur : List ImageItem) (curSize : Nat),
      curSize = scaledChunkSize cur →
      chunkOk B cur →
      ∀ c ∈ planChunksAux B cur curSize items, chunkOk B c := by
  intro items
  induction items with
  | nil =>
    intro cur curSize hsz hok c hc
    rw [planChunksAux] at hc
    split at hc
    · simp at hc
    · simp at hc
      subst hc
      exact hok
  | cons x rest ih =>
    intro cur curSize hsz hok c hc
    simp only [planChunksAux] at hc
    split at hc
    · rcases List.mem_cons.mp hc with rfl | hc
      · exact hok
      · exact ih [x] (scaledEstimate x.size) (by simp [scaledChunkSize])
          (Or.inr rfl) c hc
    · rename_i h
      rcases Decidable.not_and_iff_or_not.mp h with h1 | h2
      · exact ih (cur ++ [x]) (curSize + scaledEstimate x.size)
          (by rw [hsz, scaledChunkSize_append])
          (Or.inl (by subst hsz; rw [scaledChunkSize_append]; omega)) c hc
      · have hcur : cur = [] := by
          by_contra hne
          exact h2 hne
        subst hcur
        exact ih [x] (curSize + scaledEstimate x.size)
          (by simp [scaledChunkSize] at hsz ⊢; omega)
          (Or.inr rfl) c hc

theorem planChunks_chunkOk (B : Nat) (items : List ImageItem) :
    ∀ c ∈ planChunks B items, chunkOk B c :=
  planChunksAux_chunkOk B items [] 0 (by simp [scaledChunkSize])
    (Or.inl (by simp [scaledChunkSize]))

/-- Bridge between the rational estimate of the spec and the scaled
natural-number accumulation of the executable planner. -/
theorem chunkEstimatedSize_eq (c : List ImageItem) :
    chunkEstimatedSize c = (scaledChunkSize c : ℚ) / 100 := by
  induction c with
  | nil => simp [chunkEstimatedSize, scaledChunkSize]
  | cons x rest ih =>
    have h133 : (1.33 : ℚ) = 133 / 100 := by norm_num
    simp only [chunkEstimatedSize, scaledChunkSize, List.map_cons, List.sum_cons,
      estimatedEncodedSize, scaledEstimate] at ih ⊢
    rw [ih, h133]
    push_cast
    ring

theorem statItems_map_path (stat : String → Option Nat) :
    ∀ (paths : List String) (items : List ImageItem),
      statItems stat paths = .ok items → items.map ImageItem.path = paths := by
  intro paths
  induction paths with
  | nil =>
    intro items h
    simp only [statItems] at h
    cases h
    simp
  | cons p rest ih =>
    intro items h
    simp only [statItems] at h
    cases hst : stat p with
    | none => rw [hst] at h; cases h
    | some sz =>
      rw [hst] at h
      cases hrest : statItems stat rest with
      | error e => rw [hrest] at h; cases h
      | ok its =>
        rw [hrest] at h
        simp only [Except.map] at h
        cases h
        simp [ih its hrest]

/-! ## Message cleaning lemmas -/

theorem cleanList_length (l : List Char) :
    (cleanList l).length = l.length + (l.filter isEscapedChar).length := by
  induction l with
  | nil => simp [cleanList]
  | cons c rest ih =>
    by_cases h : isEscapedChar c <;>
      simp [cleanList, escapeChar, h, List.flatMap_cons] at ih ⊢ <;> omega

theorem cleanList_filter (l : List Char) :
    (cleanList l).filter isEscapedChar = l.filter isEscapedChar := by
  induction l with
  | nil => simp [cleanList]
  | cons c rest ih =>
    have hb : isEscapedChar '\\' = false := by decide
    by_cases h : isEscapedChar c <;>
      simp [cleanList, escapeChar, h, hb, List.flatMap_cons, List.filter_append,
        List.filter_cons, ih] at ih ⊢

theorem cleanList_id (l : List Char) (h : ∀ c ∈ l, isEscapedChar c = false) :
    cleanList l = l := by
  induction l with
  | nil => rfl
  | cons c rest ih =>
    have hc : isEscapedChar c = false := h c (List.mem_cons_self c rest)
    simp only [cleanList, List.flatMap_cons, escapeChar, hc, Bool.false_eq_true,
      if_false, List.singleton_append]
    exact congrArg (c :: ·) (ih fun d hd => h d (List.mem_cons_of_mem c hd))

/-! ## Trace shape lemmas -/

theorem runPollLoop_shape (idx : Nat) :
    ∀ (sts : List BatchStatus), ∀ e ∈ (runPollLoop idx sts).1,
      ∃ s, e = .polled idx s := by
  intro sts
  induction sts with
  | nil => intro e he; simp [runPollLoop] at he
  | cons st rest ih =>
    intro e he
    simp only [runPollLoop] at he
    split at he
    · simp at he
      exact ⟨st.status, he⟩
    · simp at he
      rcases he with rfl | he
      · exact ⟨st.status, rfl⟩
      · exact ih e he

theorem buildManifest_shape (env : BatchEnv) (idx : Nat) :
    ∀ (chunk : List ImageItem), ∀ e ∈ (buildManifest env idx chunk).1,
      (∃ c, e = .manifestRequest idx c) ∨ (∃ p, e = .encodeFailed idx p) := by
  intro chunk
  induction chunk with
  | nil => intro e he; simp [buildManifest] at he
  | cons item rest ih =>
    intro e he
    simp only [buildManifest] at he
    cases henc : env.encode item.path with
    | none =>
      rw [henc] at he
      simp at he
      rcases he with rfl | he
      · exact Or.inr ⟨item.path, rfl⟩
      · exact ih e he
    | some b =>
      rw [henc] at he
      simp at he
      rcases he with rfl | he
      · exact Or.inl ⟨lastPathComponent item.path, rfl⟩
      · exact ih e he

theorem handleFailure_shape (env : BatchEnv) (idx : Nat) (st : BatchStatus) :
    ∀ e ∈ handleFailure env idx st,
      (∃ f, e = .downloadedErrors idx f) ∨ (∃ f, e = .errorFetchFailed idx f) ∨
        (∃ c m, e = .loggedBatchItemError c m) := by
  intro e he
  cases hfid : st.error_file_id with
  | none => simp [handleFailure, hfid] at he
  | some fid =>
    cases hfe : env.fetchErrors fid with
    | none =>
      simp [handleFailure, hfid, hfe] at he
      subst he
      exact Or.inr (Or.inl ⟨fid, rfl⟩)
    | some errs =>
      simp [handleFailure, hfid, hfe] at he
      rcases he with rfl | he
      · exact Or.inl ⟨fid, rfl⟩
      · obtain ⟨er, _, rfl⟩ := he
        exact Or.inr (Or.inr ⟨er.custom_id, er.message, rfl⟩)

theorem runPollLoop_no_upload (idx : Nat) (sts : List BatchStatus) :
    ((runPollLoop idx sts).1).filterMap Event.uploadAttemptIdx = [] := by
  rw [List.filterMap_eq_nil_iff]
  intro e he
  obtain ⟨s, rfl⟩ := runPollLoop_shape idx sts e he
  rfl

theorem buildManifest_no_upload (env : BatchEnv) (idx : Nat) (chunk : List ImageItem) :
    ((buildManifest env idx chunk).1).filterMap Event.uploadAttemptIdx = [] := by
  rw [List.filterMap_eq_nil_iff]
  intro e he
  rcases buildManifest_shape env idx chunk e he with ⟨c, rfl⟩ | ⟨p, rfl⟩ <;> rfl

theorem handleFailure_no_upload (env : BatchEnv) (idx : Nat) (st : BatchStatus) :
    (handleFailure env idx st).filterMap Event.uploadAttemptIdx = [] := by
  rw [List.filterMap_eq_nil_iff]
  intro e he
  rcases handleFailure_shape env idx st e he with ⟨f, rfl⟩ | ⟨f, rfl⟩ | ⟨c, m, rfl⟩ <;> rfl

theorem runPollLoop_no_write (idx : Nat) (sts : List BatchStatus) :
    ((runPollLoop idx sts).1).filter Event.isWrite = [] := by
  rw [List.filter_eq_nil_iff]
  intro e he
  obtain ⟨s, rfl⟩ := runPollLoop_shape idx sts e he
  simp [Event.isWrite]

theorem buildManifest_no_write (env : BatchEnv) (idx : Nat) (chunk : List ImageItem) :
    ((buildManifest env idx chunk).1).filter Event.isWrite = [] := by
  rw [List.filter_eq_nil_iff]
  intro e he
  rcases buildManifest_shape env idx chunk e he with ⟨c, rfl⟩ | ⟨p, rfl⟩ <;>
    simp [Event.isWrite]

theorem runPollLoop_no_resultlog (idx : Nat) (sts : List BatchStatus) :
    ((runPollLoop idx sts).1).filter Event.isResultErrorLog = [] := by
  rw [List.filter_eq_nil_iff]
  intro e he
  obtain ⟨s, rfl⟩ := runPollLoop_shape idx sts e he
  simp [Event.isResultErrorLog]

theorem buildManifest_no_resultlog (env : BatchEnv) (idx : Nat) (chunk : List ImageItem) :
    ((buildManifest env idx chunk).1).filter Event.isResultErrorLog = [] := by
  rw [List.filter_eq_nil_iff]
  intro e he
  rcases buildManifest_shape env idx chunk e he with ⟨c, rfl⟩ | ⟨p, rfl⟩ <;>
    simp [Event.isResultErrorLog]

theorem applyWrites_append (fs0 : String → Option String) :
    ∀ (l1 l2 : List Event),
      applyWrites fs0 (l1 ++ l2) = applyWrites (applyWrites fs0 l1) l2 := by
  intro l1
  induction l1 generalizing fs0 with
  | nil => intro l2; rfl
  | cons e rest ih =>
    intro l2
    cases e <;> simp [applyWrites, ih]

/-! ## Claim theorems -/

/-- Claim C1: for every input list of image paths (with the sizes
`statSync` reports for them) and every byte budget, the chunks the
planner inside `processBatchImages` produces, concatenated in order,
are exactly the original input list — no path dropped, none duplicated,
relative order preserved. -/
theorem chunkPlanner_concat_exact (B : Nat) (stat : String → Option Nat)
    (paths : List String) (items : List ImageItem)
    (h : statItems stat paths = .ok items) :
    (planChunks B items).flatten = items ∧ items.map ImageItem.path = paths :=
  ⟨planChunks_join B items, statItems_map_path stat paths items h⟩

/-- Environment used by concrete instantiations: every stat succeeds
with a 10 MiB size. -/
def demoStat : String → Option Nat := fun _ => some (10 * 1024 * 1024)

/-- Witness for C1 at a concrete two-image input. -/
theorem chunkPlanner_concat_exact_witness :
    statItems demoStat ["./images/a.png", "./images/b.png"] =
      .ok [⟨"./images/a.png", 10 * 1024 * 1024⟩, ⟨"./images/b.png", 10 * 1024 * 1024⟩] ∧
    ((planChunks MAX_BATCH_SIZE_BYTES
        [⟨"./images/a.png", 10 * 1024 * 1024⟩,
         ⟨"./images/b.png", 10 * 1024 * 1024⟩]).flatten =
      [⟨"./images/a.png", 10 * 1024 * 1024⟩, ⟨"./images/b.png", 10 * 1024 * 1024⟩] ∧
      [(⟨"./images/a.png", 10 * 1024 * 1024⟩ : ImageItem),
       ⟨"./images/b.png", 10 * 1024 * 1024⟩].map ImageItem.path =
        ["./images/a.png", "./images/b.png"]) :=
  ⟨rfl, chunkPlanner_concat_exact MAX_BATCH_SIZE_BYTES demoStat _ _ rfl⟩

/-- Claim C2: every chunk the planner produces has estimated size
(sum of `raw size * 1.33` over its items) at most
`MAX_BATCH_SIZE_BYTES`, unless it contains exactly one item (a single
oversized item forms its own singleton chunk). -/
theorem chunk_estimate_within_budget (items c : List ImageItem)
    (hc : c ∈ planChunks MAX_BATCH_SIZE_BYTES items) :
    chunkEstimatedSize c ≤ (MAX_BATCH_SIZE_BYTES : ℚ) ∨ c.length = 1 := by
  rcases planChunks_chunkOk MAX_BATCH_SIZE_BYTES items c hc with h | h
  · left
    rw [chunkEstimatedSize_eq, div_le_iff₀ (by norm_num)]
    exact_mod_cast h
  · exact Or.inr h

/-- Witness for C2 at a concrete singleton input. -/
theorem chunk_estimate_within_budget_witness :
    [(⟨"./images/a.png", 1024⟩ : ImageItem)] ∈
      planChunks MAX_BATCH_SIZE_BYTES [⟨"./images/a.png", 1024⟩] ∧
    (chunkEstimatedSize [⟨"./images/a.png", 1024⟩] ≤ (MAX_BATCH_SIZE_BYTES : ℚ) ∨
      ([(⟨"./images/a.png", 1024⟩ : ImageItem)]).length = 1) :=
  ⟨by decide, chunk_estimate_within_budget [⟨"./images/a.png", 1024⟩]
    [⟨"./images/a.png", 1024⟩] (by decide)⟩

/-- Claim C5: `cleanMessage` prefixes every `(`, `)` and `"` with a
single backslash and leaves other characters unchanged; on
`He said "hi" (loudly)` it yields `He said \"hi\" \(loudly\)`; and it
is not idempotent: any string containing a parenthesis or double quote
gains another backslash layer on a second application. -/
theorem cleanMessage_spec :
    cleanMessage "He said \"hi\" (loudly)" = "He said \\\"hi\\\" \\(loudly\\)" ∧
    (∀ s : String, (∀ c ∈ s.data, isEscapedChar c = false) → cleanMessage s = s) ∧
    (∀ s : String, s.data.any isEscapedChar = true →
      cleanMessage (cleanMessage s) ≠ cleanMessage s) := by
  refine ⟨by decide, ?_, ?_⟩
  · intro s h
    unfold cleanMessage
    rw [cleanList_id s.data h]
  · intro s h heq
    have hd : cleanList (cleanList s.data) = cleanList s.data :=
      congrArg String.data heq
    obtain ⟨c, hcmem, hcesc⟩ := List.any_eq_true.mp h
    have hfil : (s.data.filter isEscapedChar) ≠ [] := by
      intro hnil
      exact absurd hcesc (by simpa using List.filter_eq_nil_iff.mp hnil c hcmem)
    have hpos : 0 < (s.data.filter isEscapedChar).length :=
      List.length_pos.mpr hfil
    have hlen := cleanList_length (cleanList s.data)
    rw [cleanList_filter, congrArg List.length hd] at hlen
    omega

/-- Witness for C5's conditional part at the one-character string `(`. -/
theorem cleanMessage_spec_witness :
    ("(" : String).data.any isEscapedChar = true ∧
    cleanMessage (cleanMessage "(") ≠ cleanMessage "(" :=
  ⟨by decide, cleanMessage_spec.2.2 "(" (by decide)⟩

/-- Claim C8: on `[a.png (50 MiB), b.png (50 MiB), c.png (150 MiB)]`
with budget 180 MiB the planner yields exactly `[[a, b], [c]]`; `a` and
`b` together fit the budget, `c` alone exceeds it but forms its own
singleton chunk. -/
theorem chunkPlanner_example :
    planChunks MAX_BATCH_SIZE_BYTES
        [⟨"a.png", 50 * 1024 * 1024⟩, ⟨"b.png", 50 * 1024 * 1024⟩,
         ⟨"c.png", 150 * 1024 * 1024⟩] =
      [[⟨"a.png", 50 * 1024 * 1024⟩, ⟨"b.png", 50 * 1024 * 1024⟩],
       [⟨"c.png", 150 * 1024 * 1024⟩]] ∧
    chunkEstimatedSize [⟨"a.png", 50 * 1024 * 1024⟩, ⟨"b.png", 50 * 1024 * 1024⟩] ≤
      (MAX_BATCH_SIZE_BYTES : ℚ) ∧
    (MAX_BATCH_SIZE_BYTES : ℚ) < chunkEstimatedSize [⟨"c.png", 150 * 1024 * 1024⟩] := by
  refine ⟨by decide, ?_, ?_⟩
  · rw [chunkEstimatedSize_eq, div_le_iff₀ (by norm_num)]
    norm_num [scaledChunkSize, scaledEstimate, MAX_BATCH_SIZE_BYTES]
  · rw [chunkEstimatedSize_eq, lt_div_iff₀ (by norm_num)]
    norm_num [scaledChunkSize, scaledEstimate, MAX_BATCH_SIZE_BYTES]

/-- Counterexample to claim C7: `a.png` and `a.jpg` are two distinct
items (both extensions pass the image filter), yet the batch result
loop derives the same output path for both — their captions are written
to the same file — and the synchronous path's name derivation collides
on them as well. -/
theorem outputNames_counterexample :
    ("a.png" : String) ≠ "a.jpg" ∧
    reconcile "./output" "txt" [⟨"a.png", none, "one"⟩, ⟨"a.jpg", none, "two"⟩] =
      [.wroteFile (outputFilePath "./output" "txt" "a") (cleanMessage "one"),
       .wroteFile (outputFilePath "./output" "txt" "a") (cleanMessage "two")] ∧
    getFileNameFromPath "./images/a.png" = getFileNameFromPath "./images/a.jpg" := by
  refine ⟨by decide, by decide, by decide⟩

/-- `outputFilePath folder ext` is injective in the base name. -/
theorem outputFilePath_injective (folder ext b1 b2 : String) (h : b1 ≠ b2) :
    outputFilePath folder ext b1 ≠ outputFilePath folder ext b2 := by
  intro heq
  apply h
  have hd := congrArg String.data heq
  simp only [outputFilePath, String.data_append, List.append_assoc,
    List.append_cancel_left_eq] at hd
  exact String.ext (List.append_left_injective _ hd)

/-- Claim C7 as amended: output file names are distinct for items
whose derived base names (extension-stripped) are distinct — items
differing only in their extension collide, as the counterexample
shows. -/
theorem outputNames_distinct_of_distinct_baseNames (folder ext : String)
    (cid1 cid2 p1 p2 : String)
    (hbatch : parseName cid1 ≠ parseName cid2)
    (hsync : getFileNameFromPath p1 ≠ getFileNameFromPath p2) :
    outputFilePath folder ext (parseName cid1) ≠
      outputFilePath folder ext (parseName cid2) ∧
    outputFilePath folder ext (getFileNameFromPath p1) ≠
      outputFilePath folder ext (getFileNameFromPath p2) :=
  ⟨outputFilePath_injective folder ext _ _ hbatch,
   outputFilePath_injective folder ext _ _ hsync⟩

/-- Witness for the amended C7 at concrete file names. -/
theorem outputNames_distinct_witness :
    parseName "a.png" ≠ parseName "b.png" ∧
    getFileNameFromPath "./images/a.png" ≠ getFileNameFromPath "./images/b.png" ∧
    outputFilePath "./output" "txt" (parseName "a.png") ≠
      outputFilePath "./output" "txt" (parseName "b.png") ∧
    outputFilePath "./output" "txt" (getFileNameFromPath "./images/a.png") ≠
      outputFilePath "./output" "txt" (getFileNameFromPath "./images/b.png") :=
  ⟨by decide, by decide,
   (outputNames_distinct_of_distinct_baseNames "./output" "txt" "a.png" "b.png"
      "./images/a.png" "./images/b.png" (by decide) (by decide)).1,
   (outputNames_distinct_of_distinct_baseNames "./output" "txt" "a.png" "b.png"
      "./images/a.png" "./images/b.png" (by decide) (by decide)).2⟩

/-- Claim C3: if a poll returns `failed` or `expired`, the run first
attempts to download and log the per-item error records when an
`error_file_id` is present, then aborts with the job failure: the whole
remaining run produces exactly the one submission already made — no
further chunk is submitted, however many chunks were still planned. -/
theorem failedJob_abortsRun (env : BatchEnv) (folder ext : String) (idx : Nat)
    (chunk : List ImageItem) (rest : List (List ImageItem))
    (fileId batchId : String) (pollEvs : List Event) (st : BatchStatus)
    (hup : env.upload idx = .ok fileId)
    (hcr : env.createJob fileId = .ok batchId)
    (hpoll : runPollLoop idx (env.poll batchId) = (pollEvs, some st))
    (hst : st.status = "failed" ∨ st.status = "expired") :
    ∃ evs,
      runChunksFrom env folder ext idx (chunk :: rest) =
        (evs, some (.batchJobFailure idx st.status)) ∧
      (∀ fid errs, st.error_file_id = some fid → env.fetchErrors fid = some errs →
        Event.downloadedErrors idx fid ∈ evs ∧
          ∀ er ∈ errs, Event.loggedBatchItemError er.custom_id er.message ∈ evs) ∧
      evs.filterMap Event.uploadAttemptIdx = [idx] := by
  have hproc : processOneChunk env folder ext idx chunk =
      ((buildManifest env idx chunk).1 ++ [Event.uploadAttempted idx] ++
        [Event.uploaded idx fileId] ++ [Event.jobCreated idx batchId] ++ pollEvs ++
        handleFailure env idx st,
       some (.batchJobFailure idx st.status)) := by
    simp only [processOneChunk, hup, hcr, hpoll]
    rw [if_pos hst]
  have hpu : pollEvs.filterMap Event.uploadAttemptIdx = [] := by
    have h := runPollLoop_no_upload idx (env.poll batchId)
    rw [hpoll] at h
    exact h
  refine ⟨(buildManifest env idx chunk).1 ++ [Event.uploadAttempted idx] ++
      [Event.uploaded idx fileId] ++ [Event.jobCreated idx batchId] ++ pollEvs ++
      handleFailure env idx st, ?_, ?_, ?_⟩
  · simp only [runChunksFrom, hproc]
  · intro fid errs hfid hfe
    have hhf : handleFailure env idx st =
        Event.downloadedErrors idx fid ::
          errs.map (fun er => Event.loggedBatchItemError er.custom_id er.message) := by
      simp [handleFailure, hfid, hfe]
    constructor
    · refine List.mem_append_right _ ?_
      rw [hhf]
      exact List.mem_cons_self _ _
    · intro er her
      refine List.mem_append_right _ ?_
      rw [hhf]
      exact List.mem_cons_of_mem _ (List.mem_map_of_mem _ her)
  · simp [List.filterMap_append, buildManifest_no_upload, handleFailure_no_upload,
      hpu, Event.uploadAttemptIdx]

/-- Claim C9: a non-success response to the manifest upload or to the
batch-job creation raises an error carrying the external payload, and
this is fatal to the whole run: the chunk is not resubmitted and no
further chunk is processed — the whole remaining run contains exactly
one submission attempt. -/
theorem submissionFailure_abortsRun (env : BatchEnv) (folder ext : String) (idx : Nat)
    (chunk : List ImageItem) (rest : List (List ImageItem)) (payload : String)
    (h : env.upload idx = .error payload ∨
      ∃ fileId, env.upload idx = .ok fileId ∧ env.createJob fileId = .error payload) :
    ∃ evs,
      runChunksFrom env folder ext idx (chunk :: rest) =
        (evs, some (.submissionFailure payload)) ∧
      evs.filterMap Event.uploadAttemptIdx = [idx] := by
  rcases h with hup | ⟨fileId, hup, hcr⟩
  · have hproc : processOneChunk env folder ext idx chunk =
        ((buildManifest env idx chunk).1 ++ [Event.uploadAttempted idx],
         some (.submissionFailure payload)) := by
      simp only [processOneChunk, hup]
    refine ⟨(buildManifest env idx chunk).1 ++ [Event.uploadAttempted idx], ?_, ?_⟩
    · simp only [runChunksFrom, hproc]
    · simp [List.filterMap_append, buildManifest_no_upload, Event.uploadAttemptIdx]
  · have hproc : processOneChunk env folder ext idx chunk =
        ((buildManifest env idx chunk).1 ++ [Event.uploadAttempted idx] ++
          [Event.uploaded idx fileId],
         some (.submissionFailure payload)) := by
      simp only [processOneChunk, hup, hcr]
    refine ⟨(buildManifest env idx chunk).1 ++ [Event.uploadAttempted idx] ++
        [Event.uploaded idx fileId], ?_, ?_⟩
    · simp only [runChunksFrom, hproc]
    · simp [List.filterMap_append, buildManifest_no_upload, Event.uploadAttemptIdx]

/-- Claim C4: a job that completes with one erroring record and one
successful record writes exactly one output file — at
`<outputFolder>/<baseNameWithoutExtension>.<fileExt>` for the
successful record, overwriting whatever was there — logs the erroring
record's custom id and message without writing a file for it, and runs
on to the next chunk. -/
theorem completedJob_partialFailure (env : BatchEnv) (folder ext : String) (idx : Nat)
    (chunk : List ImageItem) (rest : List (List ImageItem))
    (fileId batchId : String) (pollEvs : List Event) (st : BatchStatus)
    (cidErr msgErr junk cidOk content : String)
    (hup : env.upload idx = .ok fileId)
    (hcr : env.createJob fileId = .ok batchId)
    (hpoll : runPollLoop idx (env.poll batchId) = (pollEvs, some st))
    (hst : st.status = "completed")
    (hres : env.fetchResults st.output_file_id =
        [⟨cidErr, some msgErr, junk⟩, ⟨cidOk, none, content⟩] ∨
      env.fetchResults st.output_file_id =
        [⟨cidOk, none, content⟩, ⟨cidErr, some msgErr, junk⟩]) :
    ∃ evs,
      processOneChunk env folder ext idx chunk = (evs, none) ∧
      evs.filter Event.isWrite =
        [.wroteFile (outputFilePath folder ext (parseName cidOk))
          (cleanMessage content)] ∧
      evs.filter Event.isResultErrorLog = [.loggedResultError cidErr msgErr] ∧
      (∀ fs0, applyWrites fs0 evs (outputFilePath folder ext (parseName cidOk)) =
        some (cleanMessage content)) ∧
      runChunksFrom env folder ext idx (chunk :: rest) =
        (evs ++ (runChunksFrom env folder ext (idx + 1) rest).1,
         (runChunksFrom env folder ext (idx + 1) rest).2) := by
  have hne : ¬(st.status = "failed" ∨ st.status = "expired") := by
    rw [hst]
    decide
  have hpw : pollEvs.filter Event.isWrite = [] := by
    have h := runPollLoop_no_write idx (env.poll batchId)
    rw [hpoll] at h
    exact h
  have hpl : pollEvs.filter Event.isResultErrorLog = [] := by
    have h := runPollLoop_no_resultlog idx (env.poll batchId)
    rw [hpoll] at h
    exact h
  rcases hres with hres | hres
  · have hproc : processOneChunk env folder ext idx chunk =
        ((buildManifest env idx chunk).1 ++ [Event.uploadAttempted idx] ++
          [Event.uploaded idx fileId] ++ [Event.jobCreated idx batchId] ++ pollEvs ++
          [Event.loggedResultError cidErr msgErr,
           Event.wroteFile (outputFilePath folder ext (parseName cidOk))
             (cleanMessage content)],
         none) := by
      simp only [processOneChunk, hup, hcr, hpoll]
      rw [if_neg hne, hres]
      simp [reconcile]
    refine ⟨_, hproc, ?_, ?_, ?_, ?_⟩
    · simp [List.filter_append, buildManifest_no_write, hpw, Event.isWrite]
    · simp [List.filter_append, buildManifest_no_resultlog, hpl, Event.isResultErrorLog]
    · intro fs0
      rw [applyWrites_append]
      simp [applyWrites]
    · simp only [runChunksFrom, hproc]
  · have hproc : processOneChunk env folder ext idx chunk =
        ((buildManifest env idx chunk).1 ++ [Event.uploadAttempted idx] ++
          [Event.uploaded idx fileId] ++ [Event.jobCreated idx batchId] ++ pollEvs ++
          [Event.wroteFile (outputFilePath folder ext (parseName cidOk))
             (cleanMessage content),
           Event.loggedResultError cidErr msgErr],
         none) := by
      simp only [processOneChunk, hup, hcr, hpoll]
      rw [if_neg hne, hres]
      simp [reconcile]
    refine ⟨_, hproc, ?_, ?_, ?_, ?_⟩
    · simp [List.filter_append, buildManifest_no_write, hpw, Event.isWrite]
    · simp [List.filter_append, buildManifest_no_resultlog, hpl, Event.isResultErrorLog]
    · intro fs0
      rw [applyWrites_append]
      simp [applyWrites]
    · simp only [runChunksFrom, hproc]

/-- If some path in the list fails to stat, planning raises the first
such failure. -/
theorem statItems_error_of_none (stat : String → Option Nat) :
    ∀ (paths : List String) (p : String), p ∈ paths → stat p = none →
      ∃ q, statItems stat paths = .error q := by
  intro paths
  induction paths with
  | nil => intro p hp _; simp at hp
  | cons a rest ih =>
    intro p hp hstat
    cases hsa : stat a with
    | none => exact ⟨a, by simp [statItems, hsa]⟩
    | some sz =>
      rcases List.mem_cons.mp hp with rfl | hp
      · rw [hsa] at hstat
        cases hstat
      · obtain ⟨q, hq⟩ := ih p hp hstat
        exact ⟨q, by simp [statItems, hsa, hq, Except.map]⟩

/-- The manifest contains exactly the custom ids of the items whose
encoding succeeded, in input order. -/
theorem buildManifest_customIds (env : BatchEnv) (idx : Nat) :
    ∀ (chunk : List ImageItem),
      (buildManifest env idx chunk).2 =
        chunk.filterMap (fun item => (env.encode item.path).map
          (fun _ => lastPathComponent item.path)) := by
  intro chunk
  induction chunk with
  | nil => rfl
  | cons item rest ih =>
    cases henc : env.encode item.path with
    | none => simp [buildManifest, henc, ih]
    | some b => simp [buildManifest, henc, ih]

/-- Claim C10: every input path is stat'ed during planning, before any
submission; a failing `statSync` aborts the entire run with an empty
trace — no manifest uploaded, no job created — whereas an encoding
failure at manifest-build time merely drops that one item from the
manifest (the other items' custom ids are still included, in order). -/
theorem statFailure_fatal_encodeFailure_skips (env : BatchEnv) (folder ext : String)
    (paths : List String) (p : String)
    (hp : p ∈ paths) (hstat : env.stat p = none) :
    (∃ q, processBatchImages env folder ext paths = ([], some (.statFailure q))) ∧
    (∀ idx chunk, (buildManifest env idx chunk).2 =
      chunk.filterMap (fun item => (env.encode item.path).map
        (fun _ => lastPathComponent item.path))) := by
  constructor
  · obtain ⟨q, hq⟩ := statItems_error_of_none env.stat paths p hp hstat
    exact ⟨q, by simp [processBatchImages, hq]⟩
  · intro idx chunk
    exact buildManifest_customIds env idx chunk

/-- Attempt numbers logged by the retry loop never exceed `r` when the
loop starts at an attempt number at most `r`. -/
theorem attemptFailed_le (env : SyncEnv) (fp n folder ext : String) :
    ∀ (fuel a r : Nat), r - a ≤ fuel → a ≤ r →
      ∀ m k, Event.attemptFailed m k ∈ attemptQueryWithRetry env fp n folder ext r a →
        k ≤ r := by
  intro fuel
  induction fuel with
  | zero =>
    intro a r hfuel ha m k hk
    cases hq : env.query fp a with
    | ok c =>
      rw [attemptQueryWithRetry.eq_def, hq] at hk
      simp at hk
    | error e =>
      rw [attemptQueryWithRetry.eq_def, hq] at hk
      dsimp only at hk
      rw [dif_neg (by omega)] at hk
      simp at hk
      obtain ⟨rfl, rfl⟩ := hk
      omega
  | succ f ih =>
    intro a r hfuel ha m k hk
    cases hq : env.query fp a with
    | ok c =>
      rw [attemptQueryWithRetry.eq_def, hq] at hk
      simp at hk
    | error e =>
      rw [attemptQueryWithRetry.eq_def, hq] at hk
      dsimp only at hk
      split at hk
      · rename_i hlt
        simp at hk
        rcases hk with ⟨rfl, rfl⟩ | hk
        · omega
        · exact ih (a + 1) r (by omega) (by omega) m k hk
      · simp at hk
        obtain ⟨rfl, rfl⟩ := hk
        omega

/-- Claim C6: in the synchronous path each item is attempted at most 3
times; failing twice then succeeding writes the cleaned caption and
logs no permanent failure; failing all 3 attempts writes nothing, logs
the permanent failure, and the loop moves on to the next item — one
item's permanent failure never aborts the run. -/
theorem syncRetry_spec (env : SyncEnv) (p folder ext : String) :
    (∀ e1 e2 c, env.query p 1 = .error e1 → env.query p 2 = .error e2 →
      env.query p 3 = .ok c →
      attemptQueryWithRetry env p (getFileNameFromPath p) folder ext 3 1 =
        [.attemptFailed (getFileNameFromPath p) 1,
         .attemptFailed (getFileNameFromPath p) 2,
         .wroteFile (outputFilePath folder ext (getFileNameFromPath p))
           (cleanMessage c)]) ∧
    (∀ e1 e2 e3, env.query p 1 = .error e1 → env.query p 2 = .error e2 →
      env.query p 3 = .error e3 →
      attemptQueryWithRetry env p (getFileNameFromPath p) folder ext 3 1 =
        [.attemptFailed (getFileNameFromPath p) 1,
         .attemptFailed (getFileNameFromPath p) 2,
         .attemptFailed (getFileNameFromPath p) 3,
         .loggedPermanentFailure (getFileNameFromPath p)]) ∧
    (∀ rest, processImagesSynchronously env folder ext (p :: rest) =
      attemptQueryWithRetry env p (getFileNameFromPath p) folder ext 3 1 ++
        processImagesSynchronously env folder ext rest) ∧
    (∀ k m, Event.attemptFailed m k ∈
      attemptQueryWithRetry env p (getFileNameFromPath p) folder ext 3 1 →
        k ≤ 3) := by
  refine ⟨?_, ?_, ?_, ?_⟩
  · intro e1 e2 c h1 h2 h3
    generalize getFileNameFromPath p = n
    rw [attemptQueryWithRetry.eq_def, h1]
    dsimp only
    rw [dif_pos (by omega)]
    show Event.attemptFailed n 1 ::
      attemptQueryWithRetry env p n folder ext 3 2 = _
    rw [attemptQueryWithRetry.eq_def, h2]
    dsimp only
    rw [dif_pos (by omega)]
    show Event.attemptFailed n 1 :: Event.attemptFailed n 2 ::
      attemptQueryWithRetry env p n folder ext 3 3 = _
    rw [attemptQueryWithRetry.eq_def, h3]
  · intro e1 e2 e3 h1 h2 h3
    generalize getFileNameFromPath p = n
    rw [attemptQueryWithRetry.eq_def, h1]
    dsimp only
    rw [dif_pos (by omega)]
    show Event.attemptFailed n 1 ::
      attemptQueryWithRetry env p n folder ext 3 2 = _
    rw [attemptQueryWithRetry.eq_def, h2]
    dsimp only
    rw [dif_pos (by omega)]
    show Event.attemptFailed n 1 :: Event.attemptFailed n 2 ::
      attemptQueryWithRetry env p n folder ext 3 3 = _
    rw [attemptQueryWithRetry.eq_def, h3]
    dsimp only
    rw [dif_neg (by omega)]
  · intro rest
    simp [processImagesSynchronously]
  · intro k m hk
    exact attemptFailed_le env p (getFileNameFromPath p) folder ext 2 1 3
      (by omega) (by omega) m k hk

/-! ## Concrete environments for the witnesses -/

/-- Sync environment failing the first two attempts of any item. -/
def demoSyncEnv : SyncEnv where
  query := fun _ attempt => if attempt < 3 then .error "transient" else .ok "a cat"

/-- Witness for C6 at a concrete item. -/
theorem syncRetry_spec_witness :
    demoSyncEnv.query "./images/a.png" 1 = .error "transient" ∧
    demoSyncEnv.query "./images/a.png" 2 = .error "transient" ∧
    demoSyncEnv.query "./images/a.png" 3 = .ok "a cat" ∧
    attemptQueryWithRetry demoSyncEnv "./images/a.png"
        (getFileNameFromPath "./images/a.png") "./output" "txt" 3 1 =
      [.attemptFailed (getFileNameFromPath "./images/a.png") 1,
       .attemptFailed (getFileNameFromPath "./images/a.png") 2,
       .wroteFile (outputFilePath "./output" "txt"
           (getFileNameFromPath "./images/a.png"))
         (cleanMessage "a cat")] :=
  ⟨rfl, rfl, rfl,
   (syncRetry_spec demoSyncEnv "./images/a.png" "./output" "txt").1 "transient"
     "transient" "a cat" rfl rfl rfl⟩

/-- Batch environment whose job fails at the second poll with an error
file available. -/
def demoFailEnv : BatchEnv where
  stat := fun _ => some 1000
  encode := fun _ => some "base64"
  upload := fun _ => .ok "file-1"
  createJob := fun _ => .ok "batch-1"
  poll := fun _ => [⟨"in_progress", none, none⟩, ⟨"failed", some "errfile-1", none⟩]
  fetchErrors := fun _ => some [⟨"a.png", "server error"⟩]
  fetchResults := fun _ => []

/-- Witness for C3 with a second chunk still planned. -/
theorem failedJob_abortsRun_witness :
    demoFailEnv.upload 0 = .ok "file-1" ∧
    demoFailEnv.createJob "file-1" = .ok "batch-1" ∧
    (∃ evs,
      runChunksFrom demoFailEnv "./output" "txt" 0
          [[⟨"./images/a.png", 1000⟩], [⟨"./images/b.png", 1000⟩]] =
        (evs, some (.batchJobFailure 0 "failed")) ∧
      (∀ fid errs,
        (⟨"failed", some "errfile-1", none⟩ : BatchStatus).error_file_id = some fid →
        demoFailEnv.fetchErrors fid = some errs →
        Event.downloadedErrors 0 fid ∈ evs ∧
          ∀ er ∈ errs, Event.loggedBatchItemError er.custom_id er.message ∈ evs) ∧
      evs.filterMap Event.uploadAttemptIdx = [0]) :=
  ⟨rfl, rfl,
   failedJob_abortsRun demoFailEnv "./output" "txt" 0 [⟨"./images/a.png", 1000⟩]
     [[⟨"./images/b.png", 1000⟩]] "file-1" "batch-1"
     [Event.polled 0 "in_progress", Event.polled 0 "failed"]
     ⟨"failed", some "errfile-1", none⟩ rfl rfl rfl (Or.inl rfl)⟩

/-- Batch environment rejecting every upload. -/
def demoRejectEnv : BatchEnv where
  stat := fun _ => some 1000
  encode := fun _ => some "base64"
  upload := fun _ => .error "invalid api key"
  createJob := fun _ => .ok "batch-1"
  poll := fun _ => []
  fetchErrors := fun _ => none
  fetchResults := fun _ => []

/-- Witness for C9 with a second chunk still planned. -/
theorem submissionFailure_abortsRun_witness :
    demoRejectEnv.upload 0 = .error "invalid api key" ∧
    (∃ evs,
      runChunksFrom demoRejectEnv "./output" "txt" 0
          [[⟨"./images/a.png", 1000⟩], [⟨"./images/b.png", 1000⟩]] =
        (evs, some (.submissionFailure "invalid api key")) ∧
      evs.filterMap Event.uploadAttemptIdx = [0]) :=
  ⟨rfl,
   submissionFailure_abortsRun demoRejectEnv "./output" "txt" 0
     [⟨"./images/a.png", 1000⟩] [[⟨"./images/b.png", 1000⟩]] "invalid api key"
     (Or.inl rfl)⟩

/-- Batch environment completing immediately with one erroring and one
successful result. -/
def demoCompleteEnv : BatchEnv where
  stat := fun _ => some 1000
  encode := fun _ => some "base64"
  upload := fun _ => .ok "file-1"
  createJob := fun _ => .ok "batch-1"
  poll := fun _ => [⟨"completed", none, some "out-1"⟩]
  fetchErrors := fun _ => none
  fetchResults := fun _ => [⟨"a.png", some "rate limited", ""⟩, ⟨"b.png", none, "a dog"⟩]

/-- Witness for C4 at the concrete completed job. -/
theorem completedJob_partialFailure_witness :
    demoCompleteEnv.fetchResults (some "out-1") =
      [⟨"a.png", some "rate limited", ""⟩, ⟨"b.png", none, "a dog"⟩] ∧
    (∃ evs,
      processOneChunk demoCompleteEnv "./output" "txt" 0
          [⟨"./images/a.png", 1000⟩, ⟨"./images/b.png", 1000⟩] = (evs, none) ∧
      evs.filter Event.isWrite =
        [.wroteFile (outputFilePath "./output" "txt" (parseName "b.png"))
          (cleanMessage "a dog")] ∧
      evs.filter Event.isResultErrorLog = [.loggedResultError "a.png" "rate limited"] ∧
      (∀ fs0, applyWrites fs0 evs (outputFilePath "./output" "txt" (parseName "b.png")) =
        some (cleanMessage "a dog")) ∧
      runChunksFrom demoCompleteEnv "./output" "txt" 0
          [[⟨"./images/a.png", 1000⟩, ⟨"./images/b.png", 1000⟩]] =
        (evs ++ (runChunksFrom demoCompleteEnv "./output" "txt" 1 []).1,
         (runChunksFrom demoCompleteEnv "./output" "txt" 1 []).2)) :=
  ⟨rfl,
   completedJob_partialFailure demoCompleteEnv "./output" "txt" 0
     [⟨"./images/a.png", 1000⟩, ⟨"./images/b.png", 1000⟩] [] "file-1" "batch-1"
     [Event.polled 0 "completed"] ⟨"completed", none, some "out-1"⟩
     "a.png" "rate limited" "" "b.png" "a dog" rfl rfl rfl rfl (Or.inl rfl)⟩

/-- Batch environment where one input path fails to stat. -/
def demoMissingFileEnv : BatchEnv where
  stat := fun q => if q = "./images/gone.png" then none else some 1000
  encode := fun _ => some "base64"
  upload := fun _ => .ok "file-1"
  createJob := fun _ => .ok "batch-1"
  poll := fun _ => []
  fetchErrors := fun _ => none
  fetchResults := fun _ => []

/-- Witness for C10 at a run whose second input path is unreadable. -/
theorem statFailure_fatal_witness :
    "./images/gone.png" ∈ ["./images/a.png", "./images/gone.png"] ∧
    demoMissingFileEnv.stat "./images/gone.png" = none ∧
    ((∃ q, processBatchImages demoMissingFileEnv "./output" "txt"
        ["./images/a.png", "./images/gone.png"] = ([], some (.statFailure q))) ∧
     (∀ idx chunk, (buildManifest demoMissingFileEnv idx chunk).2 =
       chunk.filterMap (fun item => (demoMissingFileEnv.encode item.path).map
         (fun _ => lastPathComponent item.path)))) :=
  ⟨by decide, by decide,
   statFailure_fatal_encodeFailure_skips demoMissingFileEnv "./output" "txt"
     ["./images/a.png", "./images/gone.png"] "./images/gone.png"
     (by decide) (by decide)⟩
